import Mathlib

/-!
Verification of the elastic-package test runner core: the pipeline test
runner (`pipeline.run` and its helpers), the xUnit report renderer
(`formats.reportXUnitFormat`) and the alternate xUnit reporter
(`reporters.ReportXUnit`), as a shallow embedding of the Go sources.

External collaborators (file system, the remote Elasticsearch client, the
golden-file store, the wall clock) are modelled as explicit function-valued
parameters; Go's `map` is modelled as an insertion-ordered association list
together with explicit iteration-order parameters, because Go specifies no
map iteration order.
-/

namespace testrunner

/-- Modelled from the spec: the `testrunner.TestResult` record (its defining
file is not among the sources; the field set is the union of the fields the
source files use: TestType, Package, DataStream, Name, TimeTaken,
TimeElapsed, ErrorMsg, FailureMsg, FailureDetails). Durations are modelled
as natural numbers of nanoseconds. -/
structure TestResult where
  testType : String
  pkg : String
  dataStream : String
  name : String
  timeTaken : Nat
  timeElapsed : Nat
  errorMsg : String
  failureMsg : String
  failureDetails : String
deriving DecidableEq

end testrunner

/-- Association-list lookup, modelling indexing a Go `map[string]V`. -/
def alookup {β : Type} : List (String × β) → String → Option β
  | [], _ => none
  | (k, v) :: rest, key => if k = key then some v else alookup rest key

/-- Association-list update, modelling assignment `m[key] = v` on a Go
`map[string]V`; a new key is appended, so insertion order is kept. -/
def aset {β : Type} : List (String × β) → String → β → List (String × β)
  | [], key, v => [(key, v)]
  | (k, w) :: rest, key, v =>
    if k = key then (k, v) :: rest else (k, w) :: aset rest key v

namespace pipeline

/-- pipeline.TestType, the tag under which the pipeline runner registers. -/
def TestType : String := "pipeline"

/-- Modelled from the spec: the sentinel text of `errTestCaseFailed`, the
distinguished "content mismatch" error declared outside the given sources;
the spec calls it the mismatch sentinel marking a failure message. -/
def errTestCaseFailedMessage : String := "test case failed"

/-- Modelled from the spec: the reserved "expected result" file-name suffix
(`expectedTestResultSuffix`, declared outside the given sources). -/
def expectedTestResultSuffix : String := "-expected.json"

/-- Modelled from the spec: the reserved test-configuration file-name suffix
(`configTestSuffix`, declared outside the given sources). -/
def configTestSuffix : String := "-config.yml"

/-- A Go `error` value as the pipeline runner distinguishes them: the
sentinel `errTestCaseFailed`, compared by identity, or any other error
carrying its message text. -/
inductive PErr where
  | testCaseFailed : PErr
  | mk : String → PErr
deriving DecidableEq

/-- The text `err.Error()` of a pipeline-runner error. -/
def PErr.message : PErr → String
  | .testCaseFailed => errTestCaseFailedMessage
  | .mk m => m

/-- Modelled from the spec: `pipeline.testCase`, a named unit of parsed
input (its parsed events or raw input kept opaque), created by loading one
test-case file and consumed by the simulate step. -/
structure TestCase where
  name : String
  input : String
deriving DecidableEq

/-- Modelled from the spec: `pipeline.testResult`, the observed output of
the remote simulate operation, kept opaque (compared only for equality by
the golden-file store model). -/
structure SimulationResult where
  raw : String
deriving DecidableEq

/-- Modelled from the spec: the parsing configuration read from a test
case's sidecar config file, kept opaque. -/
structure Config where
  raw : String
deriving DecidableEq

/-- testrunner.TestFolder: the folder of test cases plus the identity of
the package and data stream it belongs to. -/
structure TestFolder where
  path : String
  pkg : String
  dataStream : String

/-- testrunner.TestOptions: the external configuration of one run (the
ESClient handle is modelled by the effect environment, not stored here). -/
structure TestOptions where
  testFolder : TestFolder
  generateTestResult : Bool

/-- The effectful collaborators the per-case loop body uses: file reads,
the test-case parsers, the remote simulate call, the golden-file store
(`σ` is the store's state) and the wall clock. Each is modelled as a pure
function so a run is a deterministic function of this environment. -/
structure CaseEnv (σ : Type) where
  readFile : String → Except String String
  createTestCaseForEvents : String → String → Except String TestCase
  readConfigForTestCase : String → Except String Config
  createTestCaseForRawInput : String → String → Config → Except String TestCase
  simulatePipelineProcessing : String → TestCase → Except String SimulationResult
  writeTestResult : σ → String → SimulationResult → Except String σ
  compareResults : σ → String → SimulationResult → Option PErr
  elapsedTime : String → Nat

/-- The full effect environment of `run`: the loop collaborators plus
directory listing, data-stream root lookup and pipeline install/uninstall
on the remote engine (`uninstallIngestPipelines` returns the error of the
uninstall call, if any). -/
structure RunEnv (σ : Type) extends CaseEnv σ where
  readDir : String → Except String (List String)
  findDataStreamRootForPath : String → Except String (String × Bool)
  installIngestPipelines : String → Except String (String × List String)
  uninstallIngestPipelines : List String → Option String

/-- filepath.Join, modelled as plain concatenation with a separator. -/
def pathJoin (dir file : String) : String := dir ++ "/" ++ file

/-- Helper of `filepathExt`: walk the reversed character list; `acc` holds
the characters already seen after a prospective dot. -/
def extFromRev : List Char → List Char → String
  | [], _ => ""
  | c :: rest, acc =>
    if c = '/' then ""
    else if c = '.' then String.mk ('.' :: acc)
    else extFromRev rest (c :: acc)

/-- filepath.Ext: the suffix of the last path element beginning at its
final dot, or empty when it has no dot. -/
def filepathExt (p : String) : String := extFromRev p.toList.reverse []

/-- The filtering loop of `listTestCaseFiles`: drop names ending in either
reserved suffix, keep the rest in listing order. -/
def filterTestFiles : List String → List String
  | [] => []
  | fi :: rest =>
    if fi.endsWith expectedTestResultSuffix || fi.endsWith configTestSuffix then
      filterTestFiles rest
    else
      fi :: filterTestFiles rest

/-- pipeline.runner.listTestCaseFiles: read the test folder's directory
listing and keep the file names not ending in a reserved suffix; a read
error is wrapped with the folder path. -/
def listTestCaseFiles (readDir : String → Except String (List String))
    (path : String) : Except String (List String) :=
  match readDir path with
  | .error e => .error ("reading pipeline tests failed (path: " ++ path ++ "): " ++ e)
  | .ok fis => .ok (filterTestFiles fis)

/-- pipeline.runner.loadTestCaseFile: read the test-case file, then parse
it according to its extension (.json as pre-structured events, .log as raw
input plus its sidecar config); any other extension is an error. -/
def loadTestCaseFile {σ : Type} (env : CaseEnv σ) (folderPath testCaseFile : String) :
    Except String TestCase :=
  let testCasePath := pathJoin folderPath testCaseFile
  match env.readFile testCasePath with
  | .error e => .error ("reading input file failed (testCasePath: " ++ testCasePath ++ "): " ++ e)
  | .ok testCaseData =>
    let ext := filepathExt testCaseFile
    if ext = ".json" then
      match env.createTestCaseForEvents testCaseFile testCaseData with
      | .error e =>
        .error ("creating test case for events failed (testCasePath: " ++ testCasePath ++ "): " ++ e)
      | .ok tc => .ok tc
    else if ext = ".log" then
      match env.readConfigForTestCase testCasePath with
      | .error e =>
        .error ("reading config for test case failed (testCasePath: " ++ testCasePath ++ "): " ++ e)
      | .ok config =>
        match env.createTestCaseForRawInput testCaseFile testCaseData config with
        | .error e =>
          .error ("creating test case for events failed (testCasePath: " ++ testCasePath ++ "): " ++ e)
        | .ok tc => .ok tc
    else
      .error ("unsupported extension for test case file (ext: " ++ ext ++ ")")

/-- The shared comparison stage of `verifyResults`: `compareResults` may
report the mismatch sentinel (passed through by identity), another error
(wrapped), or a match. -/
def compareStage {σ : Type} (env : CaseEnv σ) (st : σ) (testCasePath : String)
    (result : SimulationResult) : σ × Option PErr :=
  match env.compareResults st testCasePath result with
  | some .testCaseFailed => (st, some .testCaseFailed)
  | some (.mk e) => (st, some (.mk ("comparing test results failed: " ++ e)))
  | none => (st, none)

/-- pipeline.runner.verifyResults: in generate mode first overwrite the
golden file with the observed result (a write error is wrapped and
returned), then in every mode compare the observed result against the
stored golden file. Returns the store state after any write. -/
def verifyResults {σ : Type} (env : CaseEnv σ) (options : TestOptions) (st : σ)
    (testCaseFile : String) (result : SimulationResult) : σ × Option PErr :=
  let testCasePath := pathJoin options.testFolder.path testCaseFile
  match (if options.generateTestResult then env.writeTestResult st testCasePath result
         else .ok st : Except String σ) with
  | .error e => (st, some (.mk ("writing test result failed: " ++ e)))
  | .ok st' => compareStage env st' testCasePath result

/-- What the per-case loop of `run` produces: the accumulated results
slice, the returned error (none on success) and the final store state. -/
structure LoopOut (σ : Type) where
  results : List testrunner.TestResult
  err : Option PErr
  state : σ

/-- The per-case loop of pipeline.runner.run, one iteration per discovered
test-case file. Go appends `tr` to the results slice by value right after
a successful load; the later assignments to the local variable `tr`
(TimeTaken, ErrorMsg, FailureMsg) happen after that copy, so they are kept
here as dead rebindings that never reach the accumulated list, and on a
load failure `tr` is never appended at all. -/
def runLoop {σ : Type} (env : CaseEnv σ) (options : TestOptions) (entryPipeline : String) :
    List String → List testrunner.TestResult → Bool → σ → LoopOut σ
  | [], results, failed, st =>
    ⟨results, if failed then some (.mk "at least one test case failed") else none, st⟩
  | testCaseFile :: rest, results, failed, st =>
    let tr : testrunner.TestResult :=
      { testType := TestType, pkg := options.testFolder.pkg,
        dataStream := options.testFolder.dataStream,
        name := "", timeTaken := 0, timeElapsed := 0,
        errorMsg := "", failureMsg := "", failureDetails := "" }
    match loadTestCaseFile env options.testFolder.path testCaseFile with
    | .error e =>
      -- Go: tr.ErrorMsg is set on the local tr, which is never appended.
      let _tr := { tr with errorMsg := "loading test case failed: " ++ e }
      ⟨results, some (.mk ("loading test case failed: " ++ e)), st⟩
    | .ok tc =>
      let tr := { tr with name := tc.name }
      let results := results ++ [tr]
      match env.simulatePipelineProcessing entryPipeline tc with
      | .error e =>
        -- Go: tr.ErrorMsg is set after tr was already copied into results.
        let _tr := { tr with errorMsg := "simulating pipeline processing failed: " ++ e }
        ⟨results, some (.mk ("simulating pipeline processing failed: " ++ e)), st⟩
      | .ok result =>
        -- Go: tr.TimeTaken is set after tr was already copied into results.
        let _tr := { tr with timeTaken := env.elapsedTime testCaseFile }
        match verifyResults env options st testCaseFile result with
        | (st', some .testCaseFailed) =>
          -- Go: tr.FailureMsg is set after tr was already copied into results.
          let _tr2 := { _tr with failureMsg := PErr.message .testCaseFailed }
          runLoop env options entryPipeline rest results true st'
        | (st', some (.mk e)) =>
          ⟨results, some (.mk ("verifying test result failed: " ++ e)), st'⟩
        | (st', none) =>
          runLoop env options entryPipeline rest results failed st'

/-- What one call of `run` produces: the returned results and error, the
final golden-store state, the pipeline-ID sets passed to the deferred
uninstall (in call order) and the warnings logged by the deferred
uninstall. -/
structure RunOutcome (σ : Type) where
  results : List testrunner.TestResult
  err : Option PErr
  state : σ
  uninstallCalls : List (List String)
  warnings : List String

/-- pipeline.runner.run (the body of the public `Run`): discover test-case
files, resolve the data-stream root, install the ingest pipelines, process
every case, and — via Go's `defer`, hence on every exit path past a
successful install — uninstall the installed pipelines, logging an
uninstall error only as a warning. -/
def run {σ : Type} (env : RunEnv σ) (options : TestOptions) (st : σ) : RunOutcome σ :=
  match listTestCaseFiles env.readDir options.testFolder.path with
  | .error e => ⟨[], some (.mk ("listing test case definitions failed: " ++ e)), st, [], []⟩
  | .ok testCaseFiles =>
    match env.findDataStreamRootForPath options.testFolder.path with
    | .error e => ⟨[], some (.mk ("locating data_stream root failed: " ++ e)), st, [], []⟩
    | .ok (_, false) => ⟨[], some (.mk "data stream root not found"), st, [], []⟩
    | .ok (dataStreamPath, true) =>
      match env.installIngestPipelines dataStreamPath with
      | .error e => ⟨[], some (.mk ("installing ingest pipelines failed: " ++ e)), st, [], []⟩
      | .ok (entryPipeline, pipelineIDs) =>
        let body := runLoop env.toCaseEnv options entryPipeline testCaseFiles [] false st
        let warnings :=
          match env.uninstallIngestPipelines pipelineIDs with
          | some e => ["uninstalling ingest pipelines failed: " ++ e]
          | none => []
        ⟨body.results, body.err, body.state, [pipelineIDs], warnings⟩

end pipeline

namespace formats

/-- formats.testCase: one xUnit case element (ClassName is declared by the
source but never assigned by the renderer, so it stays empty). -/
structure testCase where
  name : String
  className : String
  time : Nat
  error : String
  failure : String
deriving DecidableEq

/-- formats.testSuite: an xUnit suite node — its comment, name, the three
aggregate counts, nested suites and leaf cases. -/
inductive testSuite where
  | mk (comment : String) (name : String) (numTests numFailures numErrors : Nat)
      (suites : List testSuite) (cases : List testCase)

def testSuite.comment : testSuite → String
  | .mk c _ _ _ _ _ _ => c

def testSuite.name : testSuite → String
  | .mk _ n _ _ _ _ _ => n

def testSuite.numTests : testSuite → Nat
  | .mk _ _ t _ _ _ _ => t

def testSuite.numFailures : testSuite → Nat
  | .mk _ _ _ f _ _ _ => f

def testSuite.numErrors : testSuite → Nat
  | .mk _ _ _ _ e _ _ => e

def testSuite.suites : testSuite → List testSuite
  | .mk _ _ _ _ _ s _ => s

def testSuite.cases : testSuite → List testCase
  | .mk _ _ _ _ _ _ c => c

/-- formats.testSuites: the root element wrapping the suite forest. -/
structure testSuites where
  suites : List testSuite

/-- The innermost grouping map: data stream name to its case slice. -/
abbrev CaseMap := List (String × List testCase)

/-- The middle grouping map: package name to its data-stream map. -/
abbrev PkgMap := List (String × CaseMap)

/-- The outer grouping map: test type to its package map. -/
abbrev TypeMap := List (String × PkgMap)

/-- The `failure` text built for one result: the failure message when one
is present, with FailureDetails appended after a ": " separator when
details are present. -/
def failureText (r : testrunner.TestResult) : String :=
  let failure := if r.failureMsg = "" then "" else r.failureMsg
  if r.failureDetails = "" then failure else failure ++ ": " ++ r.failureDetails

/-- The testCase element reportXUnitFormat builds from one TestResult. -/
def caseOf (r : testrunner.TestResult) : testCase :=
  { name := r.name, className := "", time := r.timeElapsed,
    error := r.errorMsg, failure := failureText r }

/-- The loop state of reportXUnitFormat's grouping pass: the nested maps
plus the three global counters. -/
structure XUnitAcc where
  tests : TypeMap
  numTests : Nat
  numFailures : Nat
  numErrors : Nat

/-- One iteration of reportXUnitFormat's grouping loop: create the missing
nested map entries (a fresh entry starts as the empty slice), bump the
counters, and append the case to its group. -/
def xunitStep (acc : XUnitAcc) (r : testrunner.TestResult) : XUnitAcc :=
  let pm := (alookup acc.tests r.testType).getD []
  let cm := (alookup pm r.pkg).getD []
  let cs := (alookup cm r.dataStream).getD []
  { tests := aset acc.tests r.testType (aset pm r.pkg (aset cm r.dataStream (cs ++ [caseOf r])))
    numTests := acc.numTests + 1
    numFailures := acc.numFailures + (if r.failureMsg = "" then 0 else 1)
    numErrors := acc.numErrors + (if r.errorMsg = "" then 0 else 1) }

/-- reportXUnitFormat's grouping loop over the whole input sequence. -/
def xunitScan : List testrunner.TestResult → XUnitAcc → XUnitAcc
  | [], acc => acc
  | r :: rest, acc => xunitScan rest (xunitStep acc r)

/-- The data-stream suite node built for one data-stream group. -/
def dsSuiteOf (dsName : String) (cs : List testCase) : testSuite :=
  .mk ("test suite for data stream: " ++ dsName) dsName 0 0 0 [] cs

/-- The package suite node built for one package group; `o3` is the
iteration order of the ranged-over data-stream map. -/
def pkgSuiteOf (o3 : CaseMap → CaseMap) (pkgName : String) (pkg : CaseMap) : testSuite :=
  .mk ("test suite for package: " ++ pkgName) pkgName 0 0 0
    ((o3 pkg).map (fun e => dsSuiteOf e.1 e.2)) []

/-- The test-type suite node: it carries the GLOBAL counters computed over
the whole input sequence; `o2`, `o3` are the nested map iteration orders. -/
def typeSuiteOf (o2 : PkgMap → PkgMap) (o3 : CaseMap → CaseMap)
    (nT nF nE : Nat) (testType : String) (pkgs : PkgMap) : testSuite :=
  .mk ("test suite for " ++ testType ++ " tests") testType nT nF nE
    ((o2 pkgs).map (fun e => pkgSuiteOf o3 e.1 e.2)) []

/-- formats.reportXUnitFormat up to serialization: group the results three
levels deep and build the suite tree. Go ranges over its maps in an
unspecified order, so each map level takes an explicit iteration-order
parameter (`o1`, `o2`, `o3`); Go guarantees only that each is a
permutation of the map's entries. -/
def reportXUnitTree (o1 : TypeMap → TypeMap) (o2 : PkgMap → PkgMap) (o3 : CaseMap → CaseMap)
    (results : List testrunner.TestResult) : testSuites :=
  let acc := xunitScan results ⟨[], 0, 0, 0⟩
  ⟨(o1 acc.tests).map
    (fun e => typeSuiteOf o2 o3 acc.numTests acc.numFailures acc.numErrors e.1 e.2)⟩

/-- Go's xml.Header constant. -/
def xmlHeader : String := "<?xml version=\"1.0\" encoding=\"UTF-8\"?>\n"

/-- Modelled from the spec: the serialization of one case element by the
external encoding/xml marshaller — a deterministic markup rendering of the
element's attributes and optional error/failure children. -/
def serializeCase (c : testCase) : String :=
  "<testcase name=\"" ++ c.name ++ "\" classname=\"" ++ c.className
    ++ "\" time=\"" ++ toString c.time ++ "\">"
    ++ (if c.error = "" then "" else "<error>" ++ c.error ++ "</error>")
    ++ (if c.failure = "" then "" else "<failure>" ++ c.failure ++ "</failure>")
    ++ "</testcase>"

/-- Modelled from the spec: the serialization of one suite node by the
external encoding/xml marshaller — name and count attributes, the comment,
then the nested suites and cases in order. The first argument bounds the
nesting depth so the function is structurally recursive and evaluable;
the trees the renderer builds are three levels deep, so any fuel of at
least four serializes them in full. -/
def serializeSuiteFuel : Nat → testSuite → String
  | 0, _ => ""
  | fuel + 1, .mk comment name nT nF nE suites cases =>
    "<testsuite name=\"" ++ name ++ "\" tests=\"" ++ toString nT
      ++ "\" failures=\"" ++ toString nF ++ "\" errors=\"" ++ toString nE
      ++ "\"><!--" ++ comment ++ "-->"
      ++ String.join (suites.map (serializeSuiteFuel fuel))
      ++ String.join (cases.map serializeCase)
      ++ "</testsuite>"

/-- formats.reportXUnitFormat: the xml header followed by the serialized
suite tree (serialization modelled from the spec; the tree is the
source-faithful part). -/
def reportXUnitFormat (o1 : TypeMap → TypeMap) (o2 : PkgMap → PkgMap)
    (o3 : CaseMap → CaseMap) (results : List testrunner.TestResult) : String :=
  xmlHeader ++ "<testsuites>"
    ++ String.join ((reportXUnitTree o1 o2 o3 results).suites.map (serializeSuiteFuel 4))
    ++ "</testsuites>"

end formats

namespace reporters

/-- reporters.testCase: one case element of the alternate xUnit reporter
(Name, Time, Error, Failure). -/
structure testCase where
  name : String
  time : Nat
  error : String
  failure : String
deriving DecidableEq

/-- reporters.testSuite: a suite node of the alternate reporter — only
nested suites and cases, no names or counts. -/
inductive testSuite where
  | mk (suites : List testSuite) (cases : List testCase)

def testSuite.suites : testSuite → List testSuite
  | .mk s _ => s

def testSuite.cases : testSuite → List testCase
  | .mk _ c => c

/-- reporters.testSuites: the root element. -/
structure testSuites where
  suites : List testSuite

/-- The zero value of reporters.testSuite, as produced by Go's
`make([]testSuite, n)`. -/
def emptySuite : testSuite := .mk [] []

/-- The zero value of reporters.testCase, as produced by Go's
`make([]testCase, 1)`. -/
def zeroTestCase : testCase := ⟨"", 0, "", ""⟩

/-- The inner grouping map: data stream name to its case slice. -/
abbrev DsMap := List (String × List testCase)

/-- The outer grouping map: package name to its data-stream map. -/
abbrev PkgsMap := List (String × DsMap)

/-- The testCase element ReportXUnit builds from one TestResult. -/
def caseOf (r : testrunner.TestResult) : testCase :=
  ⟨r.name, r.timeTaken, r.errorMsg, r.failureMsg⟩

/-- The loop state of ReportXUnit's grouping pass: the two-level map and
the count of distinct packages seen. -/
structure Acc where
  packages : PkgsMap
  numPackages : Nat

/-- One iteration of ReportXUnit's grouping loop: a first-seen package
creates an empty entry and bumps numPackages; a first-seen data stream
creates its case slice with `make([]testCase, 1)` — ONE zero-valued
placeholder element — and then the real case is appended. -/
def step (acc : Acc) (r : testrunner.TestResult) : Acc :=
  let packages :=
    if (alookup acc.packages r.pkg).isSome then acc.packages
    else aset acc.packages r.pkg []
  let numPackages :=
    if (alookup acc.packages r.pkg).isSome then acc.numPackages
    else acc.numPackages + 1
  let inner := (alookup packages r.pkg).getD []
  let inner :=
    if (alookup inner r.dataStream).isSome then inner
    else aset inner r.dataStream [zeroTestCase]
  let entry := (alookup inner r.dataStream).getD []
  { packages := aset packages r.pkg (aset inner r.dataStream (entry ++ [caseOf r]))
    numPackages := numPackages }

/-- ReportXUnit's grouping loop over the whole input sequence. -/
def scan : List testrunner.TestResult → Acc → Acc
  | [], acc => acc
  | r :: rest, acc => scan rest (step acc r)

/-- The grouping state ReportXUnit reaches on a given input. -/
def reportAcc (results : List testrunner.TestResult) : Acc := scan results ⟨[], 0⟩

/-- reporters.ReportXUnit up to serialization: the root suite slice is
created with `make([]testSuite, numPackages)` — numPackages zero-valued
placeholder suites — and one real suite per package is appended after
them; each package suite's slice is created with `make([]testSuite, 1)` —
one placeholder — followed by one suite per data stream whose cases are
that group's slice. `o1`, `o2` are the unspecified map iteration orders. -/
def ReportXUnitTree (o1 : PkgsMap → PkgsMap) (o2 : DsMap → DsMap)
    (results : List testrunner.TestResult) : testSuites :=
  let acc := reportAcc results
  ⟨List.replicate acc.numPackages emptySuite ++
    (o1 acc.packages).map
      (fun e => .mk (emptySuite :: (o2 e.2).map (fun d => .mk [] d.2)) [])⟩

end reporters

/-! ## Concrete demonstration inputs
A concrete golden-file store and run environments, used by the closed
evaluation theorems and witnesses below. The store state is the map from
golden-file path to stored result. -/

/-- The demonstration golden store's state type. -/
abbrev DemoStore := List (String × pipeline.SimulationResult)

/-- A concrete writeTestResult: record the observed result under the path. -/
def demoStoreWrite (st : DemoStore) (p : String) (r : pipeline.SimulationResult) :
    Except String DemoStore := .ok ((p, r) :: st)

/-- A concrete compareResults: mismatch sentinel when the stored golden
differs, a plain error when no golden file exists. -/
def demoStoreCompare (st : DemoStore) (p : String) (r : pipeline.SimulationResult) :
    Option pipeline.PErr :=
  match alookup st p with
  | some expected => if expected = r then none else some .testCaseFailed
  | none => some (.mk "missing golden file")

/-- A concrete run environment: every collaborator succeeds, parsing gives
the file's name as the case name, and simulation of a case named n yields
the result "sim:" ++ n. The directory listing is a parameter. -/
def demoEnv (listing : List String) : pipeline.RunEnv DemoStore where
  readFile := fun _ => .ok "rawdata"
  createTestCaseForEvents := fun f _ => .ok ⟨f, "events"⟩
  readConfigForTestCase := fun _ => .ok ⟨"cfg"⟩
  createTestCaseForRawInput := fun f _ _ => .ok ⟨f, "rawinput"⟩
  simulatePipelineProcessing := fun _ tc => .ok ⟨"sim:" ++ tc.name⟩
  writeTestResult := demoStoreWrite
  compareResults := demoStoreCompare
  elapsedTime := fun _ => 5
  readDir := fun _ => .ok listing
  findDataStreamRootForPath := fun _ => .ok ("root", true)
  installIngestPipelines := fun _ => .ok ("entry-pipeline", ["pl1", "pl2"])
  uninstallIngestPipelines := fun _ => none

/-- The options every demonstration run uses: folder "tests" of package
"pkg", data stream "ds", generate mode off. -/
def demoOptions : pipeline.TestOptions := ⟨⟨"tests", "pkg", "ds"⟩, false⟩

/-- The store state for the mismatch demonstration: the golden file of
case1.json differs from what simulation will observe, case2.json matches. -/
def demoMismatchStore : DemoStore :=
  [("tests/case1.json", ⟨"something-else"⟩), ("tests/case2.json", ⟨"sim:case2.json"⟩)]

/-- The demonstration options with generate mode switched on. -/
def demoGenOptions : pipeline.TestOptions := ⟨⟨"tests", "pkg", "ds"⟩, true⟩

namespace reporters

/-- The case slice ReportXUnit accumulates for package `pk` and data
stream `ds`: one case per input result of that group, in input order. -/
def groupCases (pk ds : String) (rs : List testrunner.TestResult) : List testCase :=
  (rs.filter (fun r => r.pkg == pk && r.dataStream == ds)).map caseOf

/-- The invariant the grouping loop of ReportXUnit maintains after
consuming `processed`: numPackages counts the map's (distinct, Nodup)
keys, a package key is present exactly when some processed result carries
it, a data-stream key is present under a package exactly when some
processed result of that package carries it, and every stored case slice
is the zero-valued placeholder followed by that group's cases in input
order. -/
def Inv (processed : List testrunner.TestResult) (acc : Acc) : Prop :=
  acc.numPackages = acc.packages.length
  ∧ (acc.packages.map Prod.fst).Nodup
  ∧ (∀ pk, (alookup acc.packages pk).isSome = true ↔ pk ∈ processed.map (fun r => r.pkg))
  ∧ (∀ pk dsm, alookup acc.packages pk = some dsm →
      (dsm.map Prod.fst).Nodup
      ∧ (∀ dsk, (alookup dsm dsk).isSome = true ↔
          dsk ∈ (processed.filter (fun r => r.pkg == pk)).map (fun r => r.dataStream))
      ∧ (∀ dsk cs, alookup dsm dsk = some cs →
          cs = zeroTestCase :: groupCases pk dsk processed))

end reporters

/-- A demonstration renderer input: a result with a failure message. -/
def frmFailR : testrunner.TestResult :=
  ⟨"pipeline", "pkg", "ds", "case-a", 0, 7, "", "bad", ""⟩

/-- A demonstration renderer input: a result of a second test type with an
error message. -/
def frmOtherR : testrunner.TestResult :=
  ⟨"system", "pkg2", "ds2", "case-b", 0, 3, "boom", "", ""⟩

/-- A demonstration renderer input: failure details but no failure
message. -/
def frmDetailsR : testrunner.TestResult :=
  ⟨"pipeline", "pkg", "ds", "case-c", 0, 2, "", "", "only-details"⟩

/-- A renderer input with two distinct test types: its grouping map has
two keys, so Go's unspecified map iteration order is observable. -/
def twoTypeResults : List testrunner.TestResult := [frmFailR, frmOtherR]

/-- A renderer input whose grouping keys all coincide (single group at
every map level). -/
def oneGroupResults : List testrunner.TestResult := [frmFailR, frmDetailsR]

/-! ## Theorems -/
theorem alookup_aset_self {β : Type} (m : List (String × β)) (k : String) (v : β) :
    alookup (aset m k v) k = some v := by
  induction m with
  | nil => simp [aset, alookup]
  | cons hd tl ih =>
    obtain ⟨k', w⟩ := hd
    by_cases h : k' = k <;> simp [aset, alookup, h, ih]

theorem alookup_aset_ne {β : Type} (m : List (String × β)) (k k' : String) (v : β)
    (h : k' ≠ k) : alookup (aset m k v) k' = alookup m k' := by
  induction m with
  | nil => simp [aset, alookup, Ne.symm h]
  | cons hd tl ih =>
    obtain ⟨k₀, w⟩ := hd
    simp only [aset]
    by_cases h0 : k₀ = k
    · subst h0
      simp [alookup, Ne.symm h]
    · simp [alookup, h0, ih]

theorem alookup_eq_none_iff {β : Type} (m : List (String × β)) (k : String) :
    alookup m k = none ↔ k ∉ m.map Prod.fst := by
  induction m with
  | nil => simp [alookup]
  | cons hd tl ih =>
    obtain ⟨k₀, w⟩ := hd
    by_cases h : k₀ = k
    · subst h
      simp [alookup]
    · simp [alookup, h, ih, Ne.symm h]

theorem alookup_isSome_iff {β : Type} (m : List (String × β)) (k : String) :
    (alookup m k).isSome = true ↔ k ∈ m.map Prod.fst := by
  rw [← Decidable.not_iff_not, ← alookup_eq_none_iff]
  cases alookup m k <;> simp

theorem aset_keys_of_present {β : Type} (m : List (String × β)) (k : String) (v : β)
    (h : (alookup m k).isSome = true) :
    (aset m k v).map Prod.fst = m.map Prod.fst := by
  induction m with
  | nil => simp [alookup] at h
  | cons hd tl ih =>
    obtain ⟨k₀, w⟩ := hd
    by_cases h0 : k₀ = k
    · simp [aset, h0]
    · simp only [alookup, h0, if_false] at h
      simp [aset, h0, ih h]

theorem aset_keys_of_absent {β : Type} (m : List (String × β)) (k : String) (v : β)
    (h : alookup m k = none) :
    (aset m k v).map Prod.fst = m.map Prod.fst ++ [k] := by
  induction m with
  | nil => simp [aset]
  | cons hd tl ih =>
    obtain ⟨k₀, w⟩ := hd
    by_cases h0 : k₀ = k
    · simp [alookup, h0] at h
    · simp only [alookup, h0, if_false] at h
      simp [aset, h0, ih h]

theorem alookup_of_mem_nodup {β : Type} {m : List (String × β)} {k : String} {v : β}
    (hnd : (m.map Prod.fst).Nodup) (hmem : (k, v) ∈ m) : alookup m k = some v := by
  induction m with
  | nil => simp at hmem
  | cons hd tl ih =>
    obtain ⟨k₀, w⟩ := hd
    simp only [List.map_cons, List.nodup_cons] at hnd
    rcases List.mem_cons.mp hmem with h | h
    · injection h with h1 h2
      subst h1
      subst h2
      simp [alookup]
    · have hk : k ∈ tl.map Prod.fst := List.mem_map.mpr ⟨(k, v), h, rfl⟩
      have hne : k₀ ≠ k := fun he => hnd.1 (he.symm ▸ hk)
      simp [alookup, hne, ih hnd.2 h]

namespace pipeline

/-- The filtering loop is List.filter on the not-reserved predicate. -/
theorem filterTestFiles_eq_filter (fis : List String) :
    filterTestFiles fis
      = fis.filter (fun fi => !(fi.endsWith expectedTestResultSuffix
          || fi.endsWith configTestSuffix)) := by
  induction fis with
  | nil => rfl
  | cons fi rest ih =>
    by_cases h1 : fi.endsWith expectedTestResultSuffix = true
    · simp [filterTestFiles, h1, ih, List.filter_cons]
    · by_cases h2 : fi.endsWith configTestSuffix = true
      · simp [filterTestFiles, h1, h2, ih, List.filter_cons]
      · simp only [Bool.not_eq_true] at h1 h2
        simp [filterTestFiles, h1, h2, ih, List.filter_cons]

end pipeline

/-- C5: Test-case discovery returns exactly the names of the files in the
test folder whose names end with neither the expected-result suffix nor
the config suffix, preserving the directory listing order, and fails with
a wrapped I/O error when the directory cannot be read. -/
theorem listTestCaseFiles_spec (path : String) (fis : List String) (e : String) :
    (∃ l, pipeline.listTestCaseFiles (fun _ => Except.ok fis) path = Except.ok l
        ∧ l.Sublist fis
        ∧ ∀ f, f ∈ l ↔ f ∈ fis
            ∧ f.endsWith pipeline.expectedTestResultSuffix = false
            ∧ f.endsWith pipeline.configTestSuffix = false)
    ∧ pipeline.listTestCaseFiles (fun _ => Except.error e) path
        = Except.error ("reading pipeline tests failed (path: " ++ path ++ "): " ++ e) := by
  refine ⟨⟨pipeline.filterTestFiles fis, rfl, ?_, ?_⟩, rfl⟩
  · rw [pipeline.filterTestFiles_eq_filter]
    exact List.filter_sublist fis
  · intro f
    rw [pipeline.filterTestFiles_eq_filter]
    simp [List.mem_filter]

/-- C7: With generate mode enabled, verifyResults writes the observed
result as the new golden file before performing the comparison, so under
the store's write-then-compare round-trip property it returns no error for
that case. -/
theorem verifyResults_generate_mode_matches {σ : Type} (env : pipeline.CaseEnv σ)
    (options : pipeline.TestOptions) (st st' : σ) (file : String)
    (result : pipeline.SimulationResult)
    (hgen : options.generateTestResult = true)
    (hw : env.writeTestResult st (pipeline.pathJoin options.testFolder.path file) result
            = Except.ok st')
    (hrt : ∀ s s2 p x, env.writeTestResult s p x = Except.ok s2
            → env.compareResults s2 p x = none) :
    pipeline.verifyResults env options st file result = (st', none) := by
  have hc := hrt st st' (pipeline.pathJoin options.testFolder.path file) result hw
  unfold pipeline.verifyResults
  rw [hgen]
  simp only [if_true]
  rw [hw]
  simp only [pipeline.compareStage, hc]

/-- Witness for C7 at the concrete demonstration store. -/
theorem verifyResults_generate_mode_matches_witness :
    pipeline.verifyResults (demoEnv []).toCaseEnv demoGenOptions [] "case1.json" ⟨"obs"⟩
      = ([("tests/case1.json", ⟨"obs"⟩)], none) :=
  verifyResults_generate_mode_matches (demoEnv []).toCaseEnv demoGenOptions []
    [("tests/case1.json", ⟨"obs"⟩)] "case1.json" ⟨"obs"⟩ rfl rfl
    (fun s s2 p x h => by
      injection h with h'
      subst h'
      simp [demoEnv, demoStoreCompare, alookup])

/-- C1 (failing-input evaluation): when the first discovered file
"case3.csv" fails to load (unsupported extension), `run` aborts with the
wrapped load error but the returned result sequence is EMPTY — the partial
TestResult carrying the error text is never appended (Go assigns
tr.ErrorMsg to a local copy and returns before the append), so the claim's
"includes the partial TestResult of the aborting case" fails on the code.
Later files (case4.json) are indeed not attempted. -/
theorem run_load_failure_drops_aborting_result :
    (pipeline.run (demoEnv ["case3.csv", "case4.json"]) demoOptions []).results = []
    ∧ (pipeline.run (demoEnv ["case3.csv", "case4.json"]) demoOptions []).err
        = some (.mk "loading test case failed: unsupported extension for test case file (ext: .csv)") := by
  constructor <;> rfl

/-- C2 (failing-input evaluation): on a golden-file mismatch for
case1.json the run continues to case2.json, returns both results and the
"at least one test case failed" error — but the returned TestResult of the
mismatching case has EMPTY FailureMsg (Go assigns tr.FailureMsg to the
local copy only after tr was appended by value), so the claim's
"non-empty FailureMsg" fails on the code. -/
theorem run_mismatch_continues_but_failure_msg_lost :
    (pipeline.run (demoEnv ["case1.json", "case2.json"]) demoOptions demoMismatchStore).results.map
        (fun r => (r.name, r.failureMsg))
      = [("case1.json", ""), ("case2.json", "")]
    ∧ (pipeline.run (demoEnv ["case1.json", "case2.json"]) demoOptions demoMismatchStore).err
        = some (.mk "at least one test case failed") := by
  constructor <;> rfl

/-- C4: whenever pipeline provisioning succeeds, the installed pipeline
identifiers are passed to exactly one uninstall call before `run` returns
(the deferred teardown runs on every exit path past a successful install),
and swapping the uninstall collaborator — in particular making it fail —
never changes the results or the error that `run` returns. -/
theorem run_teardown_always_and_result_invariant {σ : Type} (env : pipeline.RunEnv σ)
    (o : pipeline.TestOptions) (st : σ) (files : List String) (dsp entry : String)
    (ids : List String)
    (h0 : pipeline.listTestCaseFiles env.readDir o.testFolder.path = Except.ok files)
    (h1 : env.findDataStreamRootForPath o.testFolder.path = Except.ok (dsp, true))
    (h2 : env.installIngestPipelines dsp = Except.ok (entry, ids)) :
    (pipeline.run env o st).uninstallCalls = [ids]
    ∧ ∀ u, ((pipeline.run { env with uninstallIngestPipelines := u } o st).results
              = (pipeline.run env o st).results
        ∧ (pipeline.run { env with uninstallIngestPipelines := u } o st).err
              = (pipeline.run env o st).err
        ∧ (pipeline.run { env with uninstallIngestPipelines := u } o st).uninstallCalls
              = (pipeline.run env o st).uninstallCalls) := by
  obtain ⟨ce, rd, fr, ip, up⟩ := env
  refine ⟨?_, fun u => ⟨?_, ?_, ?_⟩⟩ <;>
    simp_all only [pipeline.run, h0, h1, h2]

/-- Witness for C4 at the concrete demonstration run. -/
theorem run_teardown_always_and_result_invariant_witness :
    (pipeline.run (demoEnv ["case1.json"]) demoOptions demoMismatchStore).uninstallCalls
        = [["pl1", "pl2"]]
    ∧ ∀ u, ((pipeline.run { demoEnv ["case1.json"] with uninstallIngestPipelines := u }
                demoOptions demoMismatchStore).results
              = (pipeline.run (demoEnv ["case1.json"]) demoOptions demoMismatchStore).results
        ∧ (pipeline.run { demoEnv ["case1.json"] with uninstallIngestPipelines := u }
                demoOptions demoMismatchStore).err
              = (pipeline.run (demoEnv ["case1.json"]) demoOptions demoMismatchStore).err
        ∧ (pipeline.run { demoEnv ["case1.json"] with uninstallIngestPipelines := u }
                demoOptions demoMismatchStore).uninstallCalls
              = (pipeline.run (demoEnv ["case1.json"]) demoOptions
                  demoMismatchStore).uninstallCalls) :=
  run_teardown_always_and_result_invariant (demoEnv ["case1.json"]) demoOptions
    demoMismatchStore ["case1.json"] "root" "entry-pipeline" ["pl1", "pl2"] rfl rfl rfl

namespace pipeline

/-- Loop invariant behind C8: the per-case loop only ever appends results
whose error, failure and timing fields are still zero-valued (the Go code
assigns those fields to the local copy after the append, or returns
without appending). -/
theorem runLoop_results_inv {σ : Type} (env : CaseEnv σ) (o : TestOptions)
    (ep : String) (files : List String) :
    ∀ (acc : List testrunner.TestResult) (failed : Bool) (st : σ),
      (∀ tr ∈ acc, tr.errorMsg = "" ∧ tr.failureMsg = "" ∧ tr.timeTaken = 0) →
      ∀ tr ∈ (runLoop env o ep files acc failed st).results,
        tr.errorMsg = "" ∧ tr.failureMsg = "" ∧ tr.timeTaken = 0 := by
  induction files with
  | nil =>
    intro acc failed st hacc tr htr
    simp only [runLoop] at htr
    exact hacc tr htr
  | cons f rest ih =>
    intro acc failed st hacc tr htr
    cases hload : loadTestCaseFile env o.testFolder.path f with
    | error e =>
      simp only [runLoop, hload] at htr
      exact hacc tr htr
    | ok tc =>
      have hext : ∀ tr' ∈ acc ++ [(⟨TestType, o.testFolder.pkg, o.testFolder.dataStream,
            tc.name, 0, 0, "", "", ""⟩ : testrunner.TestResult)],
          tr'.errorMsg = "" ∧ tr'.failureMsg = "" ∧ tr'.timeTaken = 0 := by
        intro tr' htr'
        rcases List.mem_append.mp htr' with h | h
        · exact hacc tr' h
        · rw [List.mem_singleton.mp h]
          exact ⟨rfl, rfl, rfl⟩
      cases hsim : env.simulatePipelineProcessing ep tc with
      | error e =>
        simp only [runLoop, hload, hsim] at htr
        exact hext tr htr
      | ok result =>
        rcases hver : verifyResults env o st f result with ⟨st2, verr⟩
        cases verr with
        | none =>
          simp only [runLoop, hload, hsim, hver] at htr
          exact ih _ failed st2 hext tr htr
        | some pe =>
          cases pe with
          | testCaseFailed =>
            simp only [runLoop, hload, hsim, hver] at htr
            exact ih _ true st2 hext tr htr
          | mk e =>
            simp only [runLoop, hload, hsim, hver] at htr
            exact hext tr htr

end pipeline

/-- C8: every TestResult element of the sequence actually returned by
`run` has empty ErrorMsg, empty FailureMsg and zero TimeTaken — each
result is appended by copy before those fields are assigned to the local
variable, and a result whose load fails is never appended at all. -/
theorem run_results_outcome_fields_empty {σ : Type} (env : pipeline.RunEnv σ)
    (o : pipeline.TestOptions) (st : σ) :
    ∀ tr ∈ (pipeline.run env o st).results,
      tr.errorMsg = "" ∧ tr.failureMsg = "" ∧ tr.timeTaken = 0 := by
  intro tr htr
  cases h0 : pipeline.listTestCaseFiles env.readDir o.testFolder.path with
  | error e => simp [pipeline.run, h0] at htr
  | ok files =>
    cases h1 : env.findDataStreamRootForPath o.testFolder.path with
    | error e => simp [pipeline.run, h0, h1] at htr
    | ok pr =>
      obtain ⟨dsp, found⟩ := pr
      cases found with
      | false => simp [pipeline.run, h0, h1] at htr
      | true =>
        cases h2 : env.installIngestPipelines dsp with
        | error e => simp [pipeline.run, h0, h1, h2] at htr
        | ok pr2 =>
          obtain ⟨ep, ids⟩ := pr2
          simp only [pipeline.run, h0, h1, h2] at htr
          exact pipeline.runLoop_results_inv env.toCaseEnv o ep files [] false st
            (by simp) tr htr

/-- Witness for C8: the mismatching case of the concrete demonstration run
is returned with empty ErrorMsg, empty FailureMsg and zero TimeTaken. -/
theorem run_results_outcome_fields_empty_witness :
    (⟨pipeline.TestType, "pkg", "ds", "case1.json", 0, 0, "", "", ""⟩
        : testrunner.TestResult).errorMsg = ""
    ∧ (⟨pipeline.TestType, "pkg", "ds", "case1.json", 0, 0, "", "", ""⟩
        : testrunner.TestResult).failureMsg = ""
    ∧ (⟨pipeline.TestType, "pkg", "ds", "case1.json", 0, 0, "", "", ""⟩
        : testrunner.TestResult).timeTaken = 0 :=
  run_results_outcome_fields_empty (demoEnv ["case1.json", "case2.json"]) demoOptions
    demoMismatchStore
    ⟨pipeline.TestType, "pkg", "ds", "case1.json", 0, 0, "", "", ""⟩ (by decide)

namespace formats

/-- The three counters of the grouping pass count, over the whole input:
all results, those with a non-empty FailureMsg, and those with a non-empty
ErrorMsg. -/
theorem xunitScan_counts (rs : List testrunner.TestResult) :
    ∀ acc : XUnitAcc,
      (xunitScan rs acc).numTests = acc.numTests + rs.length
      ∧ (xunitScan rs acc).numFailures
          = acc.numFailures + rs.countP (fun r => !(r.failureMsg == ""))
      ∧ (xunitScan rs acc).numErrors
          = acc.numErrors + rs.countP (fun r => !(r.errorMsg == "")) := by
  induction rs with
  | nil => intro acc; simp [xunitScan]
  | cons r rest ih =>
    intro acc
    obtain ⟨hT, hF, hE⟩ := ih (xunitStep acc r)
    refine ⟨?_, ?_, ?_⟩
    · rw [xunitScan, hT]
      simp [xunitStep, List.length_cons]
      omega
    · rw [xunitScan, hF]
      by_cases h : r.failureMsg = "" <;>
        simp [xunitStep, h, List.countP_cons] <;> omega
    · rw [xunitScan, hE]
      by_cases h : r.errorMsg = "" <;>
        simp [xunitStep, h, List.countP_cons] <;> omega

end formats

/-- C3: every test-type suite node of the xUnit renderer's tree carries
the same global totals — the number of all input results, of those with a
non-empty FailureMsg, and of those with a non-empty ErrorMsg, computed
over the entire input sequence — whatever order the maps are iterated
in. -/
theorem xunit_type_suite_counts_global (o1 : formats.TypeMap → formats.TypeMap)
    (o2 : formats.PkgMap → formats.PkgMap) (o3 : formats.CaseMap → formats.CaseMap)
    (results : List testrunner.TestResult) (s : formats.testSuite)
    (hs : s ∈ (formats.reportXUnitTree o1 o2 o3 results).suites) :
    s.numTests = results.length
    ∧ s.numFailures = results.countP (fun r => !(r.failureMsg == ""))
    ∧ s.numErrors = results.countP (fun r => !(r.errorMsg == "")) := by
  simp only [formats.reportXUnitTree] at hs
  obtain ⟨e, he, rfl⟩ := List.mem_map.mp hs
  obtain ⟨hT, hF, hE⟩ := formats.xunitScan_counts results ⟨[], 0, 0, 0⟩
  simp only [formats.typeSuiteOf, formats.testSuite.numTests, formats.testSuite.numFailures,
    formats.testSuite.numErrors]
  refine ⟨?_, ?_, ?_⟩ <;> simp [hT, hF, hE]

/-- Witness for C3 at a concrete one-result input rendered in insertion
order. -/
theorem xunit_type_suite_counts_global_witness :
    (formats.typeSuiteOf id id 1 1 0 "pipeline"
        [("pkg", [("ds", [formats.caseOf frmFailR])])]).numTests = [frmFailR].length
    ∧ (formats.typeSuiteOf id id 1 1 0 "pipeline"
        [("pkg", [("ds", [formats.caseOf frmFailR])])]).numFailures
        = [frmFailR].countP (fun r => !(r.failureMsg == ""))
    ∧ (formats.typeSuiteOf id id 1 1 0 "pipeline"
        [("pkg", [("ds", [formats.caseOf frmFailR])])]).numErrors
        = [frmFailR].countP (fun r => !(r.errorMsg == "")) :=
  xunit_type_suite_counts_global id id id [frmFailR]
    (formats.typeSuiteOf id id 1 1 0 "pipeline" [("pkg", [("ds", [formats.caseOf frmFailR])])])
    (by rw [show (formats.reportXUnitTree id id id [frmFailR]).suites
          = [formats.typeSuiteOf id id 1 1 0 "pipeline"
              [("pkg", [("ds", [formats.caseOf frmFailR])])]] from rfl]
        exact List.mem_singleton_self _)

/-- C9: a result with empty FailureMsg but non-empty FailureDetails gets a
case element whose failure text is ": " followed by the details, yet the
grouping step leaves the failures counter unchanged — FailureDetails alone
never increments the failure count. -/
theorem xunit_failure_details_not_counted (acc : formats.XUnitAcc)
    (r : testrunner.TestResult) (h1 : r.failureMsg = "") (h2 : r.failureDetails ≠ "") :
    (formats.caseOf r).failure = ": " ++ r.failureDetails
    ∧ (formats.xunitStep acc r).numFailures = acc.numFailures := by
  constructor
  · simp [formats.caseOf, formats.failureText, h1, h2]
  · simp [formats.xunitStep, h1]

/-- Witness for C9 at the concrete details-only result. -/
theorem xunit_failure_details_not_counted_witness :
    (formats.caseOf frmDetailsR).failure = ": " ++ frmDetailsR.failureDetails
    ∧ (formats.xunitStep ⟨[], 0, 0, 0⟩ frmDetailsR).numFailures
        = (⟨[], 0, 0, 0⟩ : formats.XUnitAcc).numFailures :=
  xunit_failure_details_not_counted ⟨[], 0, 0, 0⟩ frmDetailsR rfl (by decide)

/-- C6 (counterexample): rendering the same two-test-type input under two
map iteration orders that Go both permits (insertion order and its
reverse — each a permutation of the map's entries) yields different
output bytes, so the renderer is NOT a deterministic function of its
input sequence alone: the order in which Go happens to iterate the
grouping maps is observable in the output. -/
theorem reportXUnitFormat_order_dependent :
    formats.reportXUnitFormat List.reverse id id twoTypeResults
      ≠ formats.reportXUnitFormat id id id twoTypeResults := by decide

namespace formats

/-- When every input result carries the same grouping keys, the grouping
map is empty or the single nested chain for those keys. -/
theorem xunitScan_single_shape (tt pk ds : String) (rs : List testrunner.TestResult) :
    ∀ acc : XUnitAcc,
      (∀ r ∈ rs, r.testType = tt ∧ r.pkg = pk ∧ r.dataStream = ds) →
      (acc.tests = [] ∨ ∃ cs, acc.tests = [(tt, [(pk, [(ds, cs)])])]) →
      ((xunitScan rs acc).tests = []
        ∨ ∃ cs, (xunitScan rs acc).tests = [(tt, [(pk, [(ds, cs)])])]) := by
  induction rs with
  | nil =>
    intro acc _ hshape
    exact hshape
  | cons r rest ih =>
    intro acc hk hshape
    obtain ⟨h1, h2, h3⟩ := hk r (List.mem_cons_self r rest)
    rw [xunitScan]
    apply ih (xunitStep acc r) (fun r' hr' => hk r' (List.mem_cons_of_mem r hr'))
    rcases hshape with h | ⟨cs, h⟩
    · exact Or.inr ⟨[caseOf r], by simp [xunitStep, h, h1, h2, h3, alookup, aset]⟩
    · exact Or.inr ⟨cs ++ [caseOf r], by simp [xunitStep, h, h1, h2, h3, alookup, aset]⟩

end formats

/-- C6 (amended): the renderer is deterministic once the map iteration
order is fixed, and for inputs whose grouping keys all coincide (at most
one entry per map level) the output is byte-identical under EVERY pair of
legal iteration orders — legal meaning each order yields a permutation of
the map's entries, which is all Go guarantees. -/
theorem reportXUnitFormat_deterministic_single_group
    (o1 o1' : formats.TypeMap → formats.TypeMap)
    (o2 o2' : formats.PkgMap → formats.PkgMap)
    (o3 o3' : formats.CaseMap → formats.CaseMap)
    (results : List testrunner.TestResult) (tt pk ds : String)
    (hv1 : ∀ l, (o1 l).Perm l) (hv1' : ∀ l, (o1' l).Perm l)
    (hv2 : ∀ l, (o2 l).Perm l) (hv2' : ∀ l, (o2' l).Perm l)
    (hv3 : ∀ l, (o3 l).Perm l) (hv3' : ∀ l, (o3' l).Perm l)
    (hk : ∀ r ∈ results, r.testType = tt ∧ r.pkg = pk ∧ r.dataStream = ds) :
    formats.reportXUnitFormat o1 o2 o3 results
      = formats.reportXUnitFormat o1' o2' o3' results := by
  have hshape := formats.xunitScan_single_shape tt pk ds results ⟨[], 0, 0, 0⟩ hk (Or.inl rfl)
  suffices htree : formats.reportXUnitTree o1 o2 o3 results
      = formats.reportXUnitTree o1' o2' o3' results by
    unfold formats.reportXUnitFormat
    rw [htree]
  rcases hshape with h | ⟨cs, h⟩
  · have e1 := List.Perm.eq_nil (hv1 [])
    have e1' := List.Perm.eq_nil (hv1' [])
    simp only [formats.reportXUnitTree, h, e1, e1', List.map_nil]
  · have e1 := List.Perm.eq_singleton (hv1 [(tt, [(pk, [(ds, cs)])])])
    have e1' := List.Perm.eq_singleton (hv1' [(tt, [(pk, [(ds, cs)])])])
    have e2 := List.Perm.eq_singleton (hv2 [(pk, [(ds, cs)])])
    have e2' := List.Perm.eq_singleton (hv2' [(pk, [(ds, cs)])])
    have e3 := List.Perm.eq_singleton (hv3 [(ds, cs)])
    have e3' := List.Perm.eq_singleton (hv3' [(ds, cs)])
    simp only [formats.reportXUnitTree, h, e1, e1', List.map, formats.typeSuiteOf,
      formats.pkgSuiteOf, e2, e2', e3, e3']

/-- Witness for the amended C6 at a concrete single-group input under two
different legal iteration orders (reversal and the identity). -/
theorem reportXUnitFormat_deterministic_single_group_witness :
    formats.reportXUnitFormat List.reverse List.reverse List.reverse oneGroupResults
      = formats.reportXUnitFormat id id id oneGroupResults :=
  reportXUnitFormat_deterministic_single_group List.reverse id List.reverse id
    List.reverse id oneGroupResults "pipeline" "pkg" "ds"
    (fun l => l.reverse_perm) (fun l => List.Perm.refl l)
    (fun l => l.reverse_perm) (fun l => List.Perm.refl l)
    (fun l => l.reverse_perm) (fun l => List.Perm.refl l)
    (by decide)

theorem aset_aset {β : Type} (m : List (String × β)) (k : String) (v w : β) :
    aset (aset m k v) k w = aset m k w := by
  induction m with
  | nil => simp [aset]
  | cons hd tl ih =>
    obtain ⟨k₀, u⟩ := hd
    by_cases h : k₀ = k <;> simp [aset, h, ih]

theorem aset_length_of_present {β : Type} (m : List (String × β)) (k : String) (v : β)
    (h : (alookup m k).isSome = true) : (aset m k v).length = m.length := by
  have h2 := congrArg List.length (aset_keys_of_present m k v h)
  simpa using h2

theorem aset_length_of_absent {β : Type} (m : List (String × β)) (k : String) (v : β)
    (h : alookup m k = none) : (aset m k v).length = m.length + 1 := by
  have h2 := congrArg List.length (aset_keys_of_absent m k v h)
  simpa using h2

theorem nodup_keys_aset_absent {β : Type} (m : List (String × β)) (k : String) (v : β)
    (hnd : (m.map Prod.fst).Nodup) (h : alookup m k = none) :
    ((aset m k v).map Prod.fst).Nodup := by
  rw [aset_keys_of_absent m k v h]
  have hk := (alookup_eq_none_iff m k).mp h
  simp [List.nodup_append, hnd, hk]

namespace reporters

/-- Appending one result extends a group's case slice exactly when the
result carries that group's keys. -/
theorem groupCases_append_one (pk dsk : String) (r : testrunner.TestResult)
    (processed : List testrunner.TestResult) :
    groupCases pk dsk (processed ++ [r])
      = groupCases pk dsk processed
        ++ (if (r.pkg == pk && r.dataStream == dsk) = true then [caseOf r] else []) := by
  unfold groupCases
  rw [List.filter_append, List.map_append]
  by_cases h : (r.pkg == pk && r.dataStream == dsk) = true <;>
    simp [List.filter_cons, h]

theorem filter_pkg_nil_of_not_mem (pk : String) (processed : List testrunner.TestResult)
    (h : pk ∉ processed.map (fun r => r.pkg)) :
    processed.filter (fun r => r.pkg == pk) = [] := by
  rw [List.filter_eq_nil_iff]
  intro a ha hpa
  exact h (List.mem_map.mpr ⟨a, ha, by simpa using hpa⟩)

theorem groupCases_nil_of_ds_not_mem (pk dsk : String)
    (processed : List testrunner.TestResult)
    (h : dsk ∉ (processed.filter (fun r => r.pkg == pk)).map (fun r => r.dataStream)) :
    groupCases pk dsk processed = [] := by
  unfold groupCases
  rw [List.map_eq_nil_iff, List.filter_eq_nil_iff]
  intro a ha hpa
  rw [Bool.and_eq_true] at hpa
  refine h (List.mem_map.mpr ⟨a, List.mem_filter.mpr ⟨ha, hpa.1⟩, ?_⟩)
  simpa using hpa.2

theorem groupCases_nil_of_pkg_not_mem (pk dsk : String)
    (processed : List testrunner.TestResult)
    (h : pk ∉ processed.map (fun r => r.pkg)) :
    groupCases pk dsk processed = [] := by
  unfold groupCases
  rw [List.map_eq_nil_iff, List.filter_eq_nil_iff]
  intro a ha hpa
  rw [Bool.and_eq_true] at hpa
  exact h (List.mem_map.mpr ⟨a, ha, by simpa using hpa.1⟩)

/-- The per-package part of the invariant is untouched for packages other
than the appended result's. -/
theorem inv_entry_transfer (pk : String) (r : testrunner.TestResult)
    (processed : List testrunner.TestResult) (dsm : DsMap) (hne : pk ≠ r.pkg)
    (hnd : (dsm.map Prod.fst).Nodup)
    (hpres : ∀ dsk, (alookup dsm dsk).isSome = true ↔
        dsk ∈ (processed.filter (fun x => x.pkg == pk)).map (fun x => x.dataStream))
    (hcs : ∀ dsk cs, alookup dsm dsk = some cs →
        cs = zeroTestCase :: groupCases pk dsk processed) :
    (dsm.map Prod.fst).Nodup
    ∧ (∀ dsk, (alookup dsm dsk).isSome = true ↔
        dsk ∈ ((processed ++ [r]).filter (fun x => x.pkg == pk)).map (fun x => x.dataStream))
    ∧ (∀ dsk cs, alookup dsm dsk = some cs →
        cs = zeroTestCase :: groupCases pk dsk (processed ++ [r])) := by
  have hb : (r.pkg == pk) = false := beq_eq_false_iff_ne.mpr (Ne.symm hne)
  have hfil : (processed ++ [r]).filter (fun x => x.pkg == pk)
      = processed.filter (fun x => x.pkg == pk) := by
    rw [List.filter_append]
    simp [List.filter_cons, hb]
  refine ⟨hnd, ?_, ?_⟩
  · intro dsk
    rw [hfil]
    exact hpres dsk
  · intro dsk cs hlk
    rw [groupCases_append_one, hb]
    simpa using hcs dsk cs hlk

end reporters

namespace reporters

/-- One grouping iteration of ReportXUnit preserves the invariant. -/
theorem step_inv (processed : List testrunner.TestResult) (acc : Acc)
    (r : testrunner.TestResult) (h : Inv processed acc) :
    Inv (processed ++ [r]) (step acc r) := by
  obtain ⟨hlen, hnodup, hpres, hdsm⟩ := h
  have hbt : (r.pkg == r.pkg) = true := beq_self_eq_true r.pkg
  have hdt : (r.dataStream == r.dataStream) = true := beq_self_eq_true r.dataStream
  cases hp : alookup acc.packages r.pkg with
  | some dsm0 =>
    have hps : (alookup acc.packages r.pkg).isSome = true := by rw [hp]; rfl
    obtain ⟨hnd0, hpres0, hcs0⟩ := hdsm r.pkg dsm0 hp
    have hfil : (processed ++ [r]).filter (fun x => x.pkg == r.pkg)
        = processed.filter (fun x => x.pkg == r.pkg) ++ [r] := by
      rw [List.filter_append]
      simp [List.filter_cons, hbt]
    cases hq : alookup dsm0 r.dataStream with
    | some cs0 =>
      have hstep : step acc r
          = ⟨aset acc.packages r.pkg (aset dsm0 r.dataStream (cs0 ++ [caseOf r])),
              acc.numPackages⟩ := by
        simp [step, hp, hq]
      rw [hstep]
      refine ⟨?_, ?_, ?_, ?_⟩
      · show acc.numPackages = (aset acc.packages r.pkg _).length
        rw [aset_length_of_present _ _ _ hps]
        exact hlen
      · show ((aset acc.packages r.pkg _).map Prod.fst).Nodup
        rw [aset_keys_of_present _ _ _ hps]
        exact hnodup
      · intro pk'
        by_cases hpk : pk' = r.pkg
        · subst hpk
          rw [alookup_aset_self]
          simp
        · rw [alookup_aset_ne _ _ _ _ hpk, hpres pk']
          simp [hpk]
      · intro pk' dsm' hlk
        by_cases hpk : pk' = r.pkg
        · subst hpk
          rw [alookup_aset_self] at hlk
          obtain rfl := Option.some.inj hlk
          refine ⟨?_, ?_, ?_⟩
          · have hqs : (alookup dsm0 r.dataStream).isSome = true := by rw [hq]; rfl
            rw [aset_keys_of_present _ _ _ hqs]
            exact hnd0
          · intro dsk
            by_cases hdk : dsk = r.dataStream
            · subst hdk
              rw [alookup_aset_self, hfil]
              simp
            · rw [alookup_aset_ne _ _ _ _ hdk, hpres0 dsk, hfil]
              simp [hdk]
          · intro dsk cs hlk2
            by_cases hdk : dsk = r.dataStream
            · subst hdk
              rw [alookup_aset_self] at hlk2
              obtain rfl := Option.some.inj hlk2
              rw [hcs0 r.dataStream cs0 hq, groupCases_append_one]
              simp [hbt, hdt]
            · rw [alookup_aset_ne _ _ _ _ hdk] at hlk2
              rw [hcs0 dsk cs hlk2, groupCases_append_one]
              have hdf : (r.dataStream == dsk) = false :=
                beq_eq_false_iff_ne.mpr (Ne.symm hdk)
              simp [hdf]
        · rw [alookup_aset_ne _ _ _ _ hpk] at hlk
          obtain ⟨hnd', hpres', hcs'⟩ := hdsm pk' dsm' hlk
          exact inv_entry_transfer pk' r processed dsm' hpk hnd' hpres' hcs'
    | none =>
      have hstep : step acc r
          = ⟨aset acc.packages r.pkg (aset dsm0 r.dataStream [zeroTestCase, caseOf r]),
              acc.numPackages⟩ := by
        simp [step, hp, hq, alookup_aset_self, aset_aset]
      have hdsnm : r.dataStream
          ∉ (processed.filter (fun x => x.pkg == r.pkg)).map (fun x => x.dataStream) := by
        intro hmem
        have := (hpres0 r.dataStream).mpr hmem
        rw [hq] at this
        simp at this
      rw [hstep]
      refine ⟨?_, ?_, ?_, ?_⟩
      · show acc.numPackages = (aset acc.packages r.pkg _).length
        rw [aset_length_of_present _ _ _ hps]
        exact hlen
      · show ((aset acc.packages r.pkg _).map Prod.fst).Nodup
        rw [aset_keys_of_present _ _ _ hps]
        exact hnodup
      · intro pk'
        by_cases hpk : pk' = r.pkg
        · subst hpk
          rw [alookup_aset_self]
          simp
        · rw [alookup_aset_ne _ _ _ _ hpk, hpres pk']
          simp [hpk]
      · intro pk' dsm' hlk
        by_cases hpk : pk' = r.pkg
        · subst hpk
          rw [alookup_aset_self] at hlk
          obtain rfl := Option.some.inj hlk
          refine ⟨nodup_keys_aset_absent _ _ _ hnd0 hq, ?_, ?_⟩
          · intro dsk
            by_cases hdk : dsk = r.dataStream
            · subst hdk
              rw [alookup_aset_self, hfil]
              simp
            · rw [alookup_aset_ne _ _ _ _ hdk, hpres0 dsk, hfil]
              simp [hdk]
          · intro dsk cs hlk2
            by_cases hdk : dsk = r.dataStream
            · subst hdk
              rw [alookup_aset_self] at hlk2
              obtain rfl := Option.some.inj hlk2
              rw [groupCases_append_one, groupCases_nil_of_ds_not_mem _ _ _ hdsnm]
              simp [hbt, hdt]
            · rw [alookup_aset_ne _ _ _ _ hdk] at hlk2
              rw [hcs0 dsk cs hlk2, groupCases_append_one]
              have hdf : (r.dataStream == dsk) = false :=
                beq_eq_false_iff_ne.mpr (Ne.symm hdk)
              simp [hdf]
        · rw [alookup_aset_ne _ _ _ _ hpk] at hlk
          obtain ⟨hnd', hpres', hcs'⟩ := hdsm pk' dsm' hlk
          exact inv_entry_transfer pk' r processed dsm' hpk hnd' hpres' hcs'
  | none =>
    have hnm : r.pkg ∉ processed.map (fun x => x.pkg) := by
      intro hmem
      have := (hpres r.pkg).mpr hmem
      rw [hp] at this
      simp at this
    have hstep : step acc r
        = ⟨aset acc.packages r.pkg [(r.dataStream, [zeroTestCase, caseOf r])],
            acc.numPackages + 1⟩ := by
      simp [step, hp, alookup_aset_self, aset_aset, alookup, aset]
    have hfilB : (processed ++ [r]).filter (fun x => x.pkg == r.pkg) = [r] := by
      rw [List.filter_append, filter_pkg_nil_of_not_mem r.pkg processed hnm]
      simp [List.filter_cons, hbt]
    rw [hstep]
    refine ⟨?_, ?_, ?_, ?_⟩
    · show acc.numPackages + 1 = (aset acc.packages r.pkg _).length
      rw [aset_length_of_absent _ _ _ hp, hlen]
    · exact nodup_keys_aset_absent _ _ _ hnodup hp
    · intro pk'
      by_cases hpk : pk' = r.pkg
      · subst hpk
        rw [alookup_aset_self]
        simp
      · rw [alookup_aset_ne _ _ _ _ hpk, hpres pk']
        simp [hpk]
    · intro pk' dsm' hlk
      by_cases hpk : pk' = r.pkg
      · subst hpk
        rw [alookup_aset_self] at hlk
        obtain rfl := Option.some.inj hlk
        refine ⟨by simp, ?_, ?_⟩
        · intro dsk
          rw [hfilB]
          by_cases hdk : dsk = r.dataStream
          · subst hdk
            simp [alookup]
          · have hne2 : ¬r.dataStream = dsk := fun hh => hdk (Eq.symm hh)
            simp [alookup, hdk, hne2]
        · intro dsk cs hlk2
          by_cases hdk : dsk = r.dataStream
          · subst hdk
            simp only [alookup, if_pos rfl] at hlk2
            obtain rfl := Option.some.inj hlk2
            rw [groupCases_append_one, groupCases_nil_of_pkg_not_mem _ _ _ hnm]
            simp [hbt, hdt]
          · simp only [alookup, if_neg (fun hh => hdk (Eq.symm hh))] at hlk2
            cases hlk2
      · rw [alookup_aset_ne _ _ _ _ hpk] at hlk
        obtain ⟨hnd', hpres', hcs'⟩ := hdsm pk' dsm' hlk
        exact inv_entry_transfer pk' r processed dsm' hpk hnd' hpres' hcs'

end reporters

namespace reporters

/-- The grouping loop of ReportXUnit maintains the invariant across any
input sequence. -/
theorem scan_inv (rs : List testrunner.TestResult) :
    ∀ (processed : List testrunner.TestResult) (acc : Acc),
      Inv processed acc → Inv (processed ++ rs) (scan rs acc) := by
  induction rs with
  | nil =>
    intro p acc h
    simpa [scan] using h
  | cons r rest ih =>
    intro p acc h
    have h3 := ih (p ++ [r]) (step acc r) (step_inv p acc r h)
    rw [scan]
    simpa [List.append_assoc] using h3

/-- The grouping state of a whole run satisfies the invariant. -/
theorem reportAcc_inv (results : List testrunner.TestResult) :
    Inv results (reportAcc results) := by
  have h0 : Inv [] (⟨[], 0⟩ : Acc) := by
    refine ⟨rfl, List.nodup_nil, ?_, ?_⟩
    · intro pk
      simp [alookup]
    · intro pk dsm hpk
      simp [alookup] at hpk
  simpa [reportAcc] using scan_inv results [] ⟨[], 0⟩ h0

end reporters

/-- C10: on every non-empty input, the alternate reporter's tree contains
one zero-valued placeholder suite per distinct package before the real
package suites (the root slice is made with nonzero length and appended
to), each package suite carries one empty placeholder sub-suite before its
data-stream suites, and every data-stream suite's case list is the
zero-valued placeholder case followed by one case per input result of its
group. -/
theorem reportXUnit_placeholder_structure
    (o1 : reporters.PkgsMap → reporters.PkgsMap) (o2 : reporters.DsMap → reporters.DsMap)
    (results : List testrunner.TestResult)
    (hv1 : ∀ l, (o1 l).Perm l) (hv2 : ∀ l, (o2 l).Perm l)
    (hne : results ≠ []) :
    (reporters.reportAcc results).numPackages = (reporters.reportAcc results).packages.length
    ∧ (∀ pk, (alookup (reporters.reportAcc results).packages pk).isSome = true
        ↔ pk ∈ results.map (fun r => r.pkg))
    ∧ (reporters.ReportXUnitTree o1 o2 results).suites.length
        = 2 * (reporters.reportAcc results).numPackages
    ∧ (reporters.ReportXUnitTree o1 o2 results).suites.take
          (reporters.reportAcc results).numPackages
        = List.replicate (reporters.reportAcc results).numPackages reporters.emptySuite
    ∧ (∀ s ∈ (reporters.ReportXUnitTree o1 o2 results).suites.drop
          (reporters.reportAcc results).numPackages,
        s.cases = []
        ∧ ∃ tl, s.suites = reporters.emptySuite :: tl
          ∧ ∀ d ∈ tl, d.suites = []
            ∧ ∃ pk dsk, d.cases
                = reporters.zeroTestCase :: reporters.groupCases pk dsk results) := by
  obtain ⟨hlen, hnodup, hpres, hdsm⟩ := reporters.reportAcc_inv results
  have hrepl : (List.replicate (reporters.reportAcc results).numPackages
      reporters.emptySuite).length = (reporters.reportAcc results).numPackages :=
    List.length_replicate _ _
  have hsuites : (reporters.ReportXUnitTree o1 o2 results).suites
      = List.replicate (reporters.reportAcc results).numPackages reporters.emptySuite
        ++ (o1 (reporters.reportAcc results).packages).map
            (fun e => .mk (reporters.emptySuite
                :: (o2 e.2).map (fun d => .mk [] d.2)) []) := rfl
  refine ⟨hlen, hpres, ?_, ?_, ?_⟩
  · rw [hsuites, List.length_append, hrepl, List.length_map,
      (hv1 (reporters.reportAcc results).packages).length_eq, ← hlen]
    omega
  · rw [hsuites, List.take_left' hrepl]
  · intro s hs
    rw [hsuites, List.drop_left' hrepl] at hs
    obtain ⟨e, he, rfl⟩ := List.mem_map.mp hs
    have htl : (reporters.testSuite.mk
          (reporters.emptySuite :: (o2 e.2).map (fun d => reporters.testSuite.mk [] d.2))
          []).suites
        = reporters.emptySuite :: (o2 e.2).map (fun d => reporters.testSuite.mk [] d.2) := rfl
    refine ⟨rfl, _, htl, ?_⟩
    intro d hd
    obtain ⟨d0, hd0, rfl⟩ := List.mem_map.mp hd
    refine ⟨rfl, e.1, d0.1, ?_⟩
    have hemem : e ∈ (reporters.reportAcc results).packages :=
      (hv1 (reporters.reportAcc results).packages).subset he
    have hlk : alookup (reporters.reportAcc results).packages e.1 = some e.2 :=
      alookup_of_mem_nodup hnodup hemem
    obtain ⟨hnd', hpres', hcs'⟩ := hdsm e.1 e.2 hlk
    have hdmem : d0 ∈ e.2 := (hv2 e.2).subset hd0
    have hlk2 : alookup e.2 d0.1 = some d0.2 := alookup_of_mem_nodup hnd' hdmem
    exact hcs' d0.1 d0.2 hlk2

/-- Witness for C10 at a concrete one-result input iterated in insertion
order. -/
theorem reportXUnit_placeholder_structure_witness :
    (reporters.reportAcc [frmFailR]).numPackages
        = (reporters.reportAcc [frmFailR]).packages.length
    ∧ (∀ pk, (alookup (reporters.reportAcc [frmFailR]).packages pk).isSome = true
        ↔ pk ∈ [frmFailR].map (fun r => r.pkg))
    ∧ (reporters.ReportXUnitTree id id [frmFailR]).suites.length
        = 2 * (reporters.reportAcc [frmFailR]).numPackages
    ∧ (reporters.ReportXUnitTree id id [frmFailR]).suites.take
          (reporters.reportAcc [frmFailR]).numPackages
        = List.replicate (reporters.reportAcc [frmFailR]).numPackages reporters.emptySuite
    ∧ (∀ s ∈ (reporters.ReportXUnitTree id id [frmFailR]).suites.drop
          (reporters.reportAcc [frmFailR]).numPackages,
        s.cases = []
        ∧ ∃ tl, s.suites = reporters.emptySuite :: tl
          ∧ ∀ d ∈ tl, d.suites = []
            ∧ ∃ pk dsk, d.cases
                = reporters.zeroTestCase :: reporters.groupCases pk dsk [frmFailR]) :=
  reportXUnit_placeholder_structure id id [frmFailR]
    (fun l => List.Perm.refl l) (fun l => List.Perm.refl l) (by decide)
